import Mathlib

/-!
# Verification of the LeCroy WR606Zi waveform-acquisition routine

Shallow embedding of the waveform acquisition and scaling code of
`pymeasure/instruments/lecroy/LecroyWR606Zi.py`:

* `_acquire_data` — the chunked block reader (with its helpers
  `_digitize`, `_header_footer_sanity_checks`, `_npoints_sanity_checks`),
* `acquisition_sample_size` — per-source available-sample-count resolution,
* `_process_data` — the sample scaler (`_scale_data` / `_scale_time`).

Modelling conventions:

* Raw bytes are `Nat` (the code reads `np.uint8` arrays); Python ints are `Int`;
  the floats / `Decimal` values appearing in the scaling formulas are modelled
  exactly as `ℚ` (the spec requires the formulas exactly, and all sample counts
  involved are far below 2^53, where Python float arithmetic on integers is exact).
* Python exceptions become an `AcqError` value; each constructor records which
  exception of the source aborts the acquisition at that point.
* Instrument I/O is explicit: the instrument session is a record `Instr` of the
  values the code queries, plus a `respond` oracle giving the raw bytes returned
  by a `C1:WF? DAT1` block query after the first-point / points-to-return state
  was set.  Every write/query the code performs is logged as an `IOOp`.
-/

/-- Python exceptions that abort an acquisition, by raise site. -/
inductive AcqError where
  /-- `ValueError("Invalid source: ...")` in `acquisition_sample_size`, or the
  `ValueError` raised by `sanitize_source` for an unrecognized name. -/
  | invalidSource
  /-- `AttributeError`: the regex `'(\w+)[+\-*/](\w+)'` did not match the math
  definition string, so `match.group(1)` is called on `None`. -/
  | mathParseError
  /-- Python `RecursionError`: a math define whose operands lead back to `MATH`. -/
  | recursionError
  /-- `ZeroDivisionError` from `sample_points / sparsing` with `sparsing = 0`. -/
  | zeroDivisionError
  /-- `BufferError` in `_digitize`: read bytes differ from requested bytes. -/
  | bufferError
  /-- `UnicodeDecodeError` from `.decode("ascii")` on a byte ≥ 128. -/
  | decodeError
  /-- `ValueError("Waveform data in invalid : header is ...")`. -/
  | badHeader
  /-- `ValueError("Waveform data in invalid : footer is ...")`. -/
  | badFooter
  /-- `ValueError` from `int(...)` on a non-numeric count field. -/
  | intParseError
  /-- `ValueError("Number of transmitted points ... != ...")`. -/
  | npointsMismatch
  /-- `ValueError("need at least one array to concatenate")` from
  `np.concatenate([])`. -/
  | concatEmptyError
  /-- `ValueError("cannot call vectorize on size 0 inputs unless otypes is set")`
  from `np.vectorize` (called without `otypes`) on an empty sample sequence. -/
  | vectorizeEmptyError
deriving DecidableEq

/-- One instrument-side effect performed by the acquisition code, in order. -/
inductive IOOp where
  /-- `self.waveform_sparsing = v` (a `WFSU SP,v` write). -/
  | writeSparsing (v : Int)
  /-- `self.waveform_points = v` (a `WFSU NP,v` write). -/
  | writePoints (v : Int)
  /-- `self.waveform_first_point = v` (a `WFSU FP,v` write). -/
  | writeFirstPoint (v : Int)
  /-- reading `self.waveform_source`. -/
  | querySource
  /-- querying a per-channel sample count (`VBS? ... Result.Samples`). -/
  | querySampleSize (src : String)
  /-- querying the math trace definition (`F1:DEF?`). -/
  | queryMathDefine
  /-- one `{src}:WF? DAT1` binary block query, issued after the points-to-return
  and first-point state was set to `requestedPoints` / `firstPoint`. -/
  | blockTransfer (firstPoint requestedPoints : Int)
deriving DecidableEq

/-- The instrument session as seen by the acquisition code: the values its
queries return.  `respond fp np` is the raw byte message the scope returns to
the block query issued with first-point `fp` and points-to-return `np`. -/
structure Instr where
  waveform_source : String
  c1 : Nat
  c2 : Nat
  c3 : Nat
  c4 : Nat
  math_define : String
  respond : Int → Int → List Nat

/-- Modelled from the spec: `self._header_size` is assigned in the Teledyne base
class constructor, which is not under `src/`.  The source file itself pins the
value: `_header_footer_sanity_checks` documents the header as `DAT1,#9XXXXXXX`
(a 7-character prefix followed by a zero-padded count) and checks
`message_header[0:7]`, while `_npoints_sanity_checks` parses
`int(message_header[-9:])`, a 9-digit count field; and the spec's own examples
require multi-chunk acquisitions to succeed, which forces
`_header_size = 7 + 9 = 16`. -/
def header_size : Nat := 16

/-- `self._footer_size = 1` — set in `LecroyWR606Zi.__init__` (termchar `\n`). -/
def footer_size : Nat := 1

/-- `chunk_bytes = 1000000` in `_acquire_data`. -/
def chunk_bytes : Int := 1000000

/-- `chunk_points = chunk_bytes - self._header_size - self._footer_size`. -/
def chunk_points : Int := chunk_bytes - (header_size : Int) - (footer_size : Int)

/-- `bytes(...).decode("ascii")`: succeeds iff every byte is < 128. -/
def decodeAscii (bs : List Nat) : Option (List Char) :=
  if bs.all (fun b => b < 128) then some (bs.map Char.ofNat) else none

/-- Characters stripped by Python `int(str)` before parsing (whitespace).
Python also strips `\x0b`/`\x0c`; those never occur in the frames considered. -/
def isPySpace (c : Char) : Bool := c = ' ' || c = '\t' || c = '\n' || c = '\r'

/-- Strip leading and trailing whitespace, as Python `int(str)` does. -/
def stripWs (cs : List Char) : List Char :=
  ((cs.dropWhile isPySpace).reverse.dropWhile isPySpace).reverse

/-- Value of a nonempty all-digit string read in base 10. -/
def digitsVal (cs : List Char) : Nat :=
  cs.foldl (fun a c => 10 * a + (c.toNat - 48)) 0

/-- The digit block of a Python int literal: nonempty, digits only.
(Python additionally allows grouping underscores; none occur here.) -/
def digitsOnly (cs : List Char) : Option Nat :=
  if cs ≠ [] ∧ cs.all Char.isDigit then some (digitsVal cs) else none

/-- Python `int(str)`: optional surrounding whitespace, optional sign,
then a nonempty digit string; anything else raises `ValueError`. -/
def parsePyInt (cs : List Char) : Option Int :=
  match stripWs cs with
  | [] => none
  | c :: rest =>
    if c = '+' then (digitsOnly rest).map (fun n => (n : Int))
    else if c = '-' then (digitsOnly rest).map (fun n => -(n : Int))
    else (digitsOnly (c :: rest)).map (fun n => (n : Int))

/-- `_header_footer_sanity_checks(message)`: decode the first `_header_size`
bytes as ASCII and require the fixed prefix `DAT1,#9`, then decode the last
`_footer_size` bytes and require the terminator `\n`. -/
def headerFooterChecks (message : List Nat) : Except AcqError Unit :=
  match decodeAscii (message.take header_size) with
  | none => .error .decodeError
  | some message_header =>
    if message_header.take 7 ≠ "DAT1,#9".data then .error .badHeader
    else
      match decodeAscii (message.drop (message.length - footer_size)) with
      | none => .error .decodeError
      | some message_footer =>
        if message_footer ≠ "\n".data then .error .badFooter else .ok ()

/-- `_npoints_sanity_checks(message)`: `int(message_header[-9:])` must equal
`len(message) - self._header_size - self._footer_size`. -/
def npointsChecks (message : List Nat) : Except AcqError Unit :=
  match decodeAscii (message.take header_size) with
  | none => .error .decodeError
  | some message_header =>
    match parsePyInt (message_header.drop (message_header.length - 9)) with
    | none => .error .intParseError
    | some transmitted_points =>
      let received_points : Int :=
        (message.length : Int) - (header_size : Int) - (footer_size : Int)
      if transmitted_points ≠ received_points then .error .npointsMismatch
      else .ok ()

/-- Modelled from the spec: `sanitize_source` is defined in the Teledyne base
module, not under `src/`.  Per the spec ("source must resolve to an available
channel or a valid two-operand math expression"; "unresolvable source identifier
is a fatal invalid-argument error") it canonicalizes a case-insensitive source
name to one of `C1`..`C4`, `MATH` and raises `ValueError` otherwise. -/
def sanitize_source (s : String) : Option String :=
  let u := String.mk (s.data.map Char.toUpper)
  if u = "C1" ∨ u = "C2" ∨ u = "C3" ∨ u = "C4" ∨ u = "MATH" then some u else none

/-- `c.isAlphanum || c = '_'`: the characters matched by the regex class `\w`
(restricted to ASCII, which is all that occurs in math definition strings). -/
def isWordChar (c : Char) : Bool := c.isAlphanum || c = '_'

/-- One of the operator characters of the regex class `[+\-*/]`. -/
def isOpChar (c : Char) : Bool := c = '+' || c = '-' || c = '*' || c = '/'

/-- `re.match(r"'(\w+)[+\-*/](\w+)'", math_define)`: an anchored match of a
quote, a nonempty word-character group, one operator, a nonempty
word-character group and a closing quote (trailing text permitted, as with
`re.match`).  Because `\w+` cannot consume the operator or quote characters,
the greedy match coincides with `takeWhile`. -/
def mathMatch (s : String) : Option (String × String) :=
  match s.data with
  | '\'' :: rest =>
    let g1 := rest.takeWhile isWordChar
    match rest.dropWhile isWordChar with
    | op :: rest2 =>
      if isOpChar op then
        let g2 := rest2.takeWhile isWordChar
        match rest2.dropWhile isWordChar with
        | '\'' :: _ =>
          if g1 ≠ [] ∧ g2 ≠ [] then some (String.mk g1, String.mk g2) else none
        | _ => none
      else none
    | [] => none
  | _ => none

/-- Python's recursion guard, modelling the `RecursionError` that a
self-referential math definition would produce (default limit 1000). -/
def recursionLimit : Nat := 1000

/-- `acquisition_sample_size(source)`: `C1`..`C4` return the per-channel sample
count; `MATH` queries the math definition, parses its two operands and
recursively takes the minimum of their counts; anything else raises
`ValueError`.  Returns the instrument queries performed, in order, together
with the result.  The `fuel` argument models Python's recursion limit. -/
def acquisition_sample_size (env : Instr) : Nat → String → List IOOp × Except AcqError Nat
  | 0, _ => ([], .error .recursionError)
  | fuel + 1, source =>
    match sanitize_source source with
    | none => ([], .error .invalidSource)
    | some s =>
      if s = "C1" then ([.querySampleSize "C1"], .ok env.c1)
      else if s = "C2" then ([.querySampleSize "C2"], .ok env.c2)
      else if s = "C3" then ([.querySampleSize "C3"], .ok env.c3)
      else if s = "C4" then ([.querySampleSize "C4"], .ok env.c4)
      else if s = "MATH" then
        match mathMatch env.math_define with
        | none => ([.queryMathDefine], .error .mathParseError)
        | some (g1, g2) =>
          match acquisition_sample_size env fuel g1 with
          | (ops1, .error e) => (.queryMathDefine :: ops1, .error e)
          | (ops1, .ok n1) =>
            match acquisition_sample_size env fuel g2 with
            | (ops2, .error e) => (.queryMathDefine :: (ops1 ++ ops2), .error e)
            | (ops2, .ok n2) => (.queryMathDefine :: (ops1 ++ ops2), .ok (min n1 n2))
      else ([], .error .invalidSource)

/-- `expected_points` computation of `_acquire_data` (lines 1227–1230):
`min(requested_points, int(sample_points / sparsing))` for a positive cap,
else `int(sample_points / sparsing)`.  Python's `int(float)` truncates toward
zero, which is `Int.tdiv`. -/
def expected_points (requested_points : Int) (sample_points : Nat) (sparsing : Int) : Int :=
  if requested_points > 0 then min requested_points (Int.tdiv (sample_points : Int) sparsing)
  else Int.tdiv (sample_points : Int) sparsing

/-- The chunk-reading `while` loop of `_acquire_data`.  `fuel` is the number of
remaining iterations (`iterations - i`, computed before the loop), `i` the
current iteration index.  Each iteration sets points-to-return and first-point
on the instrument, issues one block transfer (`_digitize`, whose `BufferError`
length gate is the first check), runs both sanity checks, and strips header
and footer from the payload.  Returns the I/O performed and either the list of
chunk payloads or the aborting error. -/
def acquireLoop (respond : Int → Int → List Nat) (sparsing expected : Int) :
    Nat → Nat → List IOOp × Except AcqError (List (List Nat))
  | 0, _ => ([], .ok [])
  | fuel + 1, i =>
    let read_points : Int := (i : Int) * chunk_points
    let remaining_points : Int := expected - read_points
    let requested_points : Int :=
      if remaining_points > chunk_points then chunk_points else remaining_points
    let requested_bytes : Int := requested_points + (header_size : Int) + (footer_size : Int)
    let first_point : Int := read_points * sparsing
    let ops : List IOOp :=
      [.writePoints requested_points, .writeFirstPoint first_point,
       .blockTransfer first_point requested_points]
    let values := respond first_point requested_points
    if ((values.length : Int) ≠ requested_bytes) then (ops, .error .bufferError)
    else
      match headerFooterChecks values with
      | .error e => (ops, .error e)
      | .ok _ =>
        match npointsChecks values with
        | .error e => (ops, .error e)
        | .ok _ =>
          match acquireLoop respond sparsing expected fuel (i + 1) with
          | (restOps, .error e) => (ops ++ restOps, .error e)
          | (restOps, .ok chunks) =>
            (ops ++ restOps, .ok (((values.drop header_size).dropLast) :: chunks))

/-- `_acquire_data(requested_points, sparsing)`: set up the waveform transfer
parameters, resolve the expected sample count, read the data in chunks of at
most `chunk_points` samples, and concatenate the stripped payloads
(`np.concatenate` raises on an empty chunk list).  The waveform preamble
capture that follows the concatenation involves no further checks on the data
and is outside the claims considered, so it is not modelled.  Returns the
instrument I/O performed, in order, and the acquisition result. -/
def _acquire_data (env : Instr) (requested_points sparsing : Int) :
    List IOOp × Except AcqError (List Nat) :=
  let setupOps : List IOOp :=
    [.writeSparsing sparsing, .writePoints requested_points, .writeFirstPoint 0, .querySource]
  match acquisition_sample_size env recursionLimit env.waveform_source with
  | (sampleOps, .error e) => (setupOps ++ sampleOps, .error e)
  | (sampleOps, .ok sample_points) =>
    if sparsing = 0 then (setupOps ++ sampleOps, .error .zeroDivisionError)
    else
      let ep := expected_points requested_points sample_points sparsing
      let iterations : Int := -(Int.fdiv ep (-chunk_points))
      match acquireLoop env.respond sparsing ep iterations.toNat 0 with
      | (loopOps, .error e) => (setupOps ++ sampleOps ++ loopOps, .error e)
      | (loopOps, .ok chunks) =>
        if chunks.isEmpty then (setupOps ++ sampleOps ++ loopOps, .error .concatEmptyError)
        else (setupOps ++ sampleOps ++ loopOps, .ok chunks.flatten)

/-- The block transfers among a list of instrument operations, as
(first-point, points-to-return) pairs in order. -/
def blockTransfers (ops : List IOOp) : List (Int × Int) :=
  ops.filterMap fun op =>
    match op with
    | .blockTransfer fp np => some (fp, np)
    | _ => none

/-- Equality of acquisition results is decidable (used to evaluate the framing
checks on concrete frames). -/
instance {e a : Type} [DecidableEq e] [DecidableEq a] : DecidableEq (Except e a) := fun x y =>
  match x, y with
  | .ok u, .ok v =>
    if h : u = v then .isTrue (by rw [h]) else .isFalse (by intro hh; cases hh; exact h rfl)
  | .error u, .error v =>
    if h : u = v then .isTrue (by rw [h]) else .isFalse (by intro hh; cases hh; exact h rfl)
  | .ok _, .error _ => .isFalse (by intro hh; cases hh)
  | .error _, .ok _ => .isFalse (by intro hh; cases hh)

/-!
## The sample scaler (`_process_data`)

The preamble values are Python floats (and a `Decimal` conversion for the time
axis); they are modelled exactly in `ℚ`.
-/

/-- The fields of the waveform preamble that `_process_data` reads. -/
structure Preamble where
  source : String
  ydiv : ℚ
  yoffset : ℚ
  xdiv : ℚ
  sparsing : ℚ
  sampling_rate : ℚ

/-- `int.from_bytes([y], byteorder='big', signed=True)` for a byte `y`. -/
def byteSigned (y : Nat) : Int := if y < 128 then (y : Int) else (y : Int) - 256

/-- Modelled from the spec: `self._grid_number` is assigned in the Teledyne base
class constructor, which is not under `src/`.  The spec fixes the number of
horizontal graticule divisions at 14, and the `_process_data` docstring in the
source confirms it ("The 7 = 14 / 2 factor comes from the fact that there are
14 vertical grid lines"). -/
def _grid_number : ℚ := 14

/-- `_scale_data(y)` of `_process_data`: MATH sources are decoded unsigned with
a recentring offset, channel sources signed with the plain offset. -/
def _scale_data (preamble : Preamble) (y : Nat) : ℚ :=
  if preamble.source = "MATH" then
    (y : ℚ) * preamble.ydiv / 25 - preamble.ydiv * (preamble.yoffset + 255) / 50
  else
    (byteSigned y : ℚ) * preamble.ydiv / 25 - preamble.yoffset

/-- `_scale_time(x)` of `_process_data` (the `Decimal` arithmetic is exact on
the values involved, so it is modelled as exact rational arithmetic). -/
def _scale_time (preamble : Preamble) (x : Nat) : ℚ :=
  -preamble.xdiv * _grid_number / 2 + (x : ℚ) * preamble.sparsing / preamble.sampling_rate

/-- `_process_data(ydata, preamble)`: scale every sample and every sample
index, returning the voltage points, time points and the preamble.
`np.vectorize` is called without `otypes`, so it determines the output dtype
by evaluating the function on the first element and raises
`ValueError("cannot call vectorize on size 0 inputs unless otypes is set")`
when `ydata` is empty. -/
def _process_data (ydata : List Nat) (preamble : Preamble) :
    Except AcqError (List ℚ × List ℚ × Preamble) :=
  if ydata.isEmpty then .error .vectorizeEmptyError
  else
    .ok (ydata.map (_scale_data preamble),
      (List.range ydata.length).map (_scale_time preamble),
      preamble)

/-!
## Well-formed frames and claim-side descriptions

`padDigits`, `headerChars` and `goodFrame` describe the frames the instrument
produces (per the header format documented in `_header_footer_sanity_checks`):
a zero-padded 9-digit decimal count after the `DAT1,#9` prefix, one byte per
sample, and a `\n` terminator.
-/

/-- The last `d` digits of `np`, zero padded, most significant first. -/
def padDigits : Nat → Nat → List Char
  | 0, _ => []
  | d + 1, np => padDigits d (np / 10) ++ [Nat.digitChar (np % 10)]

/-- The 16 header characters of a well-formed frame declaring `np` samples. -/
def headerChars (np : Nat) : List Char := "DAT1,#9".data ++ padDigits 9 np

/-- A well-formed block-transfer message declaring and carrying `np` samples. -/
def goodFrame (np : Nat) (payload : List Nat) : List Nat :=
  (headerChars np).map Char.toNat ++ payload ++ [10]

/-- `frame` is a well-formed message carrying `np` payload bytes. -/
def isWellFormedFrame (np : Nat) (frame : List Nat) : Prop :=
  ∃ payload, payload.length = np ∧ frame = goodFrame np payload

/-- The instrument answers every block query with a well-formed frame carrying
exactly the requested number of samples. -/
def Conforming (respond : Int → Int → List Nat) : Prop :=
  ∀ fp np : Int, 0 ≤ np → isWellFormedFrame np.toNat (respond fp np)

/-- The first-point offset the loop programs for its `i`-th transfer. -/
def chunkFirstPoint (sparsing : Int) (i : Nat) : Int := (i : Int) * chunk_points * sparsing

/-- The points-to-return count the loop programs for its `i`-th transfer. -/
def chunkRequest (expected : Int) (i : Nat) : Int :=
  min (expected - (i : Int) * chunk_points) chunk_points

/-- The instrument operations of `n` successful loop iterations starting at
iteration index `i`. -/
def chunkOps (sparsing expected : Int) : Nat → Nat → List IOOp
  | 0, _ => []
  | n + 1, i =>
    [.writePoints (chunkRequest expected i), .writeFirstPoint (chunkFirstPoint sparsing i),
     .blockTransfer (chunkFirstPoint sparsing i) (chunkRequest expected i)] ++
      chunkOps sparsing expected n (i + 1)

/-- `ceil (T / chunk capacity)` in `Nat`, for `T ≥ 0`. -/
def ceilChunks (T : Int) : Nat := (T.toNat + (chunk_points.toNat - 1)) / chunk_points.toNat

/-- The errors that the two framing sanity checks can raise (the
malformed-frame taxonomy of the spec: undecodable or mismatched header prefix,
bad footer, unparsable or mismatched declared count). -/
def isMalformedErr (e : AcqError) : Prop :=
  e = .decodeError ∨ e = .badHeader ∨ e = .badFooter ∨ e = .intParseError ∨ e = .npointsMismatch

/-- The frame shape asserted by the claim (spec §6): a 9-character ASCII header
tag made of the fixed 7-character prefix `DAT1,#9` followed by a zero-padded
decimal sample count filling the remaining 2 characters, one payload byte per
sample, and the single terminator byte. -/
def claimedFrameShape (frame : List Nat) : Prop :=
  ∃ payload : List Nat, payload.length < 100 ∧
    frame = ("DAT1,#9".data ++ padDigits 2 payload.length).map Char.toNat ++ payload ++ [10]


/-- A conforming instrument oracle: answers every block query with a
well-formed frame of the requested size carrying zero bytes. -/
def goodRespond : Int → Int → List Nat :=
  fun _ np => goodFrame np.toNat (List.replicate np.toNat 0)

/-- An oracle whose frames carry the right counts but end in byte `0`
instead of the `\n` terminator. -/
def badFooterRespond : Int → Int → List Nat :=
  fun _ np => (headerChars np.toNat).map Char.toNat ++ List.replicate np.toNat 0 ++ [0]


/-!
## Lemmas: digit strings and Python int parsing
-/

lemma padDigits_length (d np : Nat) : (padDigits d np).length = d := by
  induction d generalizing np with
  | zero => rfl
  | succ d ih => simp [padDigits, ih]

lemma digitChar_toNat {m : Nat} (h : m < 10) : (Nat.digitChar m).toNat = 48 + m := by
  interval_cases m <;> rfl

lemma digitChar_isDigit {m : Nat} (h : m < 10) : (Nat.digitChar m).isDigit = true := by
  interval_cases m <;> rfl

lemma padDigits_all_digits (d np : Nat) : ∀ c ∈ padDigits d np, c.isDigit = true := by
  induction d generalizing np with
  | zero => intro c hc; simp [padDigits] at hc
  | succ d ih =>
    intro c hc
    simp only [padDigits, List.mem_append, List.mem_singleton] at hc
    rcases hc with hc | rfl
    · exact ih _ c hc
    · exact digitChar_isDigit (Nat.mod_lt _ (by norm_num))

lemma digitsVal_padDigits (d np : Nat) : digitsVal (padDigits d np) = np % 10 ^ d := by
  induction d generalizing np with
  | zero => simp [padDigits, digitsVal, Nat.mod_one]
  | succ d ih =>
    have hfold : digitsVal (padDigits d (np / 10) ++ [Nat.digitChar (np % 10)]) =
        10 * digitsVal (padDigits d (np / 10)) + ((Nat.digitChar (np % 10)).toNat - 48) := by
      simp [digitsVal, List.foldl_append]
    have hmod : np % (10 ^ d * 10) = np % 10 + 10 * (np / 10 % 10 ^ d) := by
      rw [mul_comm]; exact Nat.mod_mul
    have hd : (Nat.digitChar (np % 10)).toNat = 48 + np % 10 :=
      digitChar_toNat (Nat.mod_lt _ (by norm_num))
    simp only [padDigits, hfold, ih, hd, pow_succ]
    omega

lemma isDigit_not_pySpace {c : Char} (h : c.isDigit = true) : isPySpace c = false := by
  unfold isPySpace
  rcases eq_or_ne c ' ' with rfl | h1
  · exact absurd h (by decide)
  rcases eq_or_ne c '\t' with rfl | h2
  · exact absurd h (by decide)
  rcases eq_or_ne c '\n' with rfl | h3
  · exact absurd h (by decide)
  rcases eq_or_ne c '\r' with rfl | h4
  · exact absurd h (by decide)
  simp [h1, h2, h3, h4]

lemma dropWhile_digits (cs : List Char) (h : ∀ c ∈ cs, c.isDigit = true) :
    cs.dropWhile isPySpace = cs := by
  cases cs with
  | nil => rfl
  | cons c rest =>
    rw [List.dropWhile_cons, isDigit_not_pySpace (h c (by simp))]
    simp

lemma stripWs_digits {cs : List Char} (h : ∀ c ∈ cs, c.isDigit = true) : stripWs cs = cs := by
  unfold stripWs
  rw [dropWhile_digits cs h,
    dropWhile_digits _ (by intro c hc; exact h c (List.mem_reverse.mp hc)),
    List.reverse_reverse]

lemma isDigit_ne_plus {c : Char} (h : c.isDigit = true) : c ≠ '+' := by
  rintro rfl; exact absurd h (by decide)

lemma isDigit_ne_minus {c : Char} (h : c.isDigit = true) : c ≠ '-' := by
  rintro rfl; exact absurd h (by decide)

lemma parsePyInt_digits (cs : List Char) (hne : cs ≠ [])
    (h : ∀ c ∈ cs, c.isDigit = true) : parsePyInt cs = some (digitsVal cs) := by
  cases cs with
  | nil => exact absurd rfl hne
  | cons c rest =>
    have hc := h c (by simp)
    have hrest : ∀ x ∈ rest, x.isDigit = true :=
      fun x hx => h x (List.mem_cons_of_mem _ hx)
    unfold parsePyInt
    rw [stripWs_digits h]
    simp [digitsOnly, isDigit_ne_plus hc, isDigit_ne_minus hc, List.all_eq_true, h]
    rw [if_pos hrest]
    simp

lemma parsePyInt_padDigits9 {np : Nat} (h : np < 10 ^ 9) :
    parsePyInt (padDigits 9 np) = some (np : Int) := by
  rw [parsePyInt_digits _ (by simp [← List.length_pos_iff_ne_nil, padDigits_length])
      (padDigits_all_digits 9 np), digitsVal_padDigits, Nat.mod_eq_of_lt h]
  simp

/-!
## Lemmas: well-formed frames pass both sanity checks
-/

lemma headerChars_length (np : Nat) : (headerChars np).length = 16 := by
  simp [headerChars, padDigits_length]

lemma padDigits_toNat_lt128 (d np : Nat) : ∀ c ∈ padDigits d np, c.toNat < 128 := by
  induction d generalizing np with
  | zero => intro c hc; simp [padDigits] at hc
  | succ d ih =>
    intro c hc
    simp only [padDigits, List.mem_append, List.mem_singleton] at hc
    rcases hc with hc | rfl
    · exact ih _ c hc
    · rw [digitChar_toNat (Nat.mod_lt _ (by norm_num))]
      omega

lemma headerChars_lt128 (np : Nat) : ∀ c ∈ headerChars np, c.toNat < 128 := by
  intro c hc
  rcases List.mem_append.mp hc with hp | hd
  · fin_cases hp <;> decide
  · exact padDigits_toNat_lt128 9 np c hd

lemma decodeAscii_map_toNat (cs : List Char) (h : ∀ c ∈ cs, c.toNat < 128) :
    decodeAscii (cs.map Char.toNat) = some cs := by
  unfold decodeAscii
  rw [if_pos]
  · rw [List.map_map, show Char.ofNat ∘ Char.toNat = id from funext Char.ofNat_toNat,
      List.map_id]
  · simpa [List.all_map, List.all_eq_true, Function.comp] using h

lemma goodFrame_length (np : Nat) (p : List Nat) : (goodFrame np p).length = p.length + 17 := by
  simp [goodFrame, headerChars_length]
  omega

lemma goodFrame_take_header (np : Nat) (p : List Nat) :
    (goodFrame np p).take header_size = (headerChars np).map Char.toNat := by
  unfold goodFrame
  rw [List.append_assoc, List.take_left' (by rw [List.length_map, headerChars_length]; rfl)]

lemma goodFrame_drop_header (np : Nat) (p : List Nat) :
    (goodFrame np p).drop header_size = p ++ [10] := by
  unfold goodFrame
  rw [List.append_assoc, List.drop_left' (by rw [List.length_map, headerChars_length]; rfl)]

lemma goodFrame_payload (np : Nat) (p : List Nat) :
    ((goodFrame np p).drop header_size).dropLast = p := by
  rw [goodFrame_drop_header, List.dropLast_concat]

lemma goodFrame_footer (np : Nat) (p : List Nat) :
    (goodFrame np p).drop ((goodFrame np p).length - footer_size) = [10] := by
  have hrepr : goodFrame np p = ((headerChars np).map Char.toNat ++ p) ++ [10] := by
    simp [goodFrame]
  rw [hrepr]
  have h2 : (((headerChars np).map Char.toNat ++ p) ++ [10]).length - footer_size =
      ((headerChars np).map Char.toNat ++ p).length := by
    simp [footer_size]
  rw [h2, List.drop_left]

lemma goodFrame_headerFooterChecks (np : Nat) (p : List Nat) :
    headerFooterChecks (goodFrame np p) = .ok () := by
  unfold headerFooterChecks
  rw [goodFrame_take_header, decodeAscii_map_toNat _ (headerChars_lt128 np)]
  have hpre : (headerChars np).take 7 = "DAT1,#9".data := by
    unfold headerChars
    rw [List.take_left' (by rfl)]
  rw [goodFrame_footer]
  simp [hpre, show decodeAscii [10] = some ['\n'] from rfl]

lemma goodFrame_npointsChecks (np : Nat) (p : List Nat) (hp : p.length = np)
    (h9 : np < 10 ^ 9) : npointsChecks (goodFrame np p) = .ok () := by
  have hdropc : (headerChars np).drop ((headerChars np).length - 9) = padDigits 9 np := by
    rw [headerChars_length]
    unfold headerChars
    rw [show (16 : Nat) - 9 = 7 from rfl, List.drop_left' (by rfl)]
  have hrec : ((goodFrame np p).length : Int) - (header_size : Int) - (footer_size : Int) =
      (np : Int) := by
    rw [goodFrame_length, hp]
    simp only [header_size, footer_size]
    push_cast
    ring
  unfold npointsChecks
  rw [goodFrame_take_header, decodeAscii_map_toNat _ (headerChars_lt128 np)]
  simp only [hdropc, parsePyInt_padDigits9 h9, hrec]
  simp

/-!
## Lemmas: the chunk loop under a conforming instrument
-/

lemma chunk_points_eq : chunk_points = 999983 := rfl

lemma iterations_toNat (T : Int) (hT : 0 ≤ T) :
    (-(Int.fdiv T (-chunk_points))).toNat = (T.toNat + 999982) / 999983 := by
  lift T to ℕ using hT with N
  cases N with
  | zero => decide
  | succ m =>
    have hfd : Int.fdiv ((m + 1 : Nat) : Int) (-chunk_points) = Int.negSucc (m / 999983) := rfl
    rw [hfd]
    have hneg : (-(Int.negSucc (m / 999983))).toNat = m / 999983 + 1 := rfl
    rw [hneg]
    rw [Int.toNat_ofNat]
    omega

lemma ceilChunks_eq (T : Int) : ceilChunks T = (T.toNat + 999982) / 999983 := rfl

lemma ite_chunkRequest (T : Int) (i : Nat) :
    (if T - (i : Int) * chunk_points > chunk_points then chunk_points
     else T - (i : Int) * chunk_points) = chunkRequest T i := by
  unfold chunkRequest
  rcases le_or_lt (T - (i : Int) * chunk_points) chunk_points with h | h
  · rw [if_neg (not_lt.mpr h), min_eq_left h]
  · rw [if_pos h, min_eq_right h.le]

lemma acquireLoop_conforming (respond : Int → Int → List Nat) (hresp : Conforming respond)
    (S T : Int) :
    ∀ (n i : Nat), T ≤ ((i : Int) + (n : Int)) * chunk_points →
      (0 < n → ((i : Int) + (n : Int) - 1) * chunk_points < T) →
      ∃ chunks, acquireLoop respond S T n i = (chunkOps S T n i, .ok chunks) ∧
        chunks.flatten.length = (T - (i : Int) * chunk_points).toNat := by
  intro n
  induction n with
  | zero =>
    intro i hub _
    refine ⟨[], rfl, ?_⟩
    rw [chunk_points_eq] at *
    simp only [List.flatten_nil, List.length_nil]
    push_cast at hub
    omega
  | succ n ih =>
    intro i hub hlb
    have hlb' := hlb (Nat.succ_pos n)
    have hrem_pos : 0 < T - (i : Int) * chunk_points := by
      rw [chunk_points_eq] at *
      push_cast at hlb'
      omega
    have hreq_pos : 0 < chunkRequest T i := by
      unfold chunkRequest
      rw [chunk_points_eq] at *
      omega
    have hreq_le : chunkRequest T i ≤ 999983 := by
      unfold chunkRequest
      rw [chunk_points_eq]
      omega
    obtain ⟨payload, hplen, hframe⟩ :=
      hresp ((i : Int) * chunk_points * S) (chunkRequest T i) hreq_pos.le
    set np : Nat := (chunkRequest T i).toNat with hnp
    have h9 : np < 10 ^ 9 := by omega
    simp only [acquireLoop]
    rw [ite_chunkRequest T i, hframe]
    have hblen : (((goodFrame np payload).length : Nat) : Int) =
        chunkRequest T i + (header_size : Int) + (footer_size : Int) := by
      rw [goodFrame_length, hplen]
      simp only [header_size, footer_size]
      push_cast
      omega
    rw [if_neg (by rw [hblen]; simp)]
    rw [goodFrame_headerFooterChecks, goodFrame_npointsChecks np payload hplen h9]
    obtain ⟨chunks, hloop, hlen⟩ := ih (i + 1)
      (by rw [chunk_points_eq] at *; push_cast at hub ⊢; omega)
      (by intro hn; rw [chunk_points_eq] at *; push_cast at hlb' ⊢; omega)
    rw [hloop]
    refine ⟨payload :: chunks, ?_, ?_⟩
    · rw [goodFrame_payload]
      simp [chunkOps, chunkFirstPoint]
    · simp only [List.flatten_cons, List.length_append, hlen, hplen]
      rw [chunk_points_eq] at *
      unfold chunkRequest at hnp
      rw [chunk_points_eq] at hnp
      push_cast
      omega

/-!
## Lemmas: transfer logs, sample-size resolution, expected points
-/

lemma blockTransfers_append (a b : List IOOp) :
    blockTransfers (a ++ b) = blockTransfers a ++ blockTransfers b := by
  simp [blockTransfers]

lemma blockTransfers_chunkOps (S T : Int) :
    ∀ (n i : Nat), blockTransfers (chunkOps S T n i) =
      (List.range n).map (fun k => (chunkFirstPoint S (i + k), chunkRequest T (i + k))) := by
  intro n
  induction n with
  | zero => intro i; simp [chunkOps, blockTransfers]
  | succ n ih =>
    intro i
    rw [List.range_succ_eq_map]
    simp only [chunkOps, List.map_cons, List.map_map]
    rw [blockTransfers_append, ih (i + 1)]
    simp only [blockTransfers, List.filterMap_cons, List.filterMap_nil]
    simp [Function.comp, Nat.add_comm, Nat.add_left_comm, Nat.add_assoc]

lemma sampleSize_succ_C1 (env : Instr) (fuel : Nat) :
    acquisition_sample_size env (fuel + 1) "C1" = ([.querySampleSize "C1"], .ok env.c1) := by
  simp only [acquisition_sample_size]
  rfl

lemma sampleSize_succ_C2 (env : Instr) (fuel : Nat) :
    acquisition_sample_size env (fuel + 1) "C2" = ([.querySampleSize "C2"], .ok env.c2) := by
  simp only [acquisition_sample_size]
  rfl

lemma sampleSize_succ_C3 (env : Instr) (fuel : Nat) :
    acquisition_sample_size env (fuel + 1) "C3" = ([.querySampleSize "C3"], .ok env.c3) := by
  simp only [acquisition_sample_size]
  rfl

lemma sampleSize_succ_C4 (env : Instr) (fuel : Nat) :
    acquisition_sample_size env (fuel + 1) "C4" = ([.querySampleSize "C4"], .ok env.c4) := by
  simp only [acquisition_sample_size]
  rfl

lemma sampleSize_succ_invalid (env : Instr) (fuel : Nat) (s : String)
    (hs : sanitize_source s = none) :
    acquisition_sample_size env (fuel + 1) s = ([], .error .invalidSource) := by
  simp only [acquisition_sample_size]
  rw [hs]

lemma sampleSize_succ_MATH (env : Instr) (fuel : Nat) (a b : String)
    (hm : mathMatch env.math_define = some (a, b)) :
    acquisition_sample_size env (fuel + 1) "MATH" =
      (match acquisition_sample_size env fuel a with
       | (ops1, .error e) => (.queryMathDefine :: ops1, .error e)
       | (ops1, .ok n1) =>
         match acquisition_sample_size env fuel b with
         | (ops2, .error e) => (.queryMathDefine :: (ops1 ++ ops2), .error e)
         | (ops2, .ok n2) => (.queryMathDefine :: (ops1 ++ ops2), .ok (min n1 n2))) := by
  simp only [acquisition_sample_size]
  simp only [show sanitize_source "MATH" = some "MATH" from rfl, hm,
    eq_false (by decide : ¬(("MATH" : String) = "C1")),
    eq_false (by decide : ¬(("MATH" : String) = "C2")),
    eq_false (by decide : ¬(("MATH" : String) = "C3")),
    eq_false (by decide : ¬(("MATH" : String) = "C4")),
    eq_true (rfl : ("MATH" : String) = "MATH"), ite_false, ite_true]

lemma sampleSize_C1 (env : Instr) :
    acquisition_sample_size env recursionLimit "C1" = ([.querySampleSize "C1"], .ok env.c1) :=
  sampleSize_succ_C1 env 999

lemma sampleSize_invalid (env : Instr) (s : String) (hs : sanitize_source s = none) :
    acquisition_sample_size env recursionLimit s = ([], .error .invalidSource) :=
  sampleSize_succ_invalid env 999 s hs

lemma tdiv_ofNat (A k : Nat) : Int.tdiv (A : Int) (k : Int) = ((A / k : Nat) : Int) := rfl

lemma ceilChunks_bounds (T : Int) (hT : 0 < T) :
    T ≤ (ceilChunks T : Int) * chunk_points ∧
    ((ceilChunks T : Int) - 1) * chunk_points < T := by
  rw [ceilChunks_eq, chunk_points_eq]
  have hdm := Nat.div_add_mod (T.toNat + 999982) 999983
  have hmod := Nat.mod_lt (T.toNat + 999982) (show 0 < 999983 by norm_num)
  push_cast
  omega

lemma blockTransfers_skip_setup (S R : Int) (src : String) (X : List IOOp) :
    blockTransfers
      ([IOOp.writeSparsing S, .writePoints R, .writeFirstPoint 0, .querySource] ++
        [.querySampleSize src] ++ X) = blockTransfers X := rfl

lemma blockTransfers_chunkOps_zero (S T : Int) (n : Nat) :
    blockTransfers (chunkOps S T n 0) =
      (List.range n).map (fun k => (chunkFirstPoint S k, chunkRequest T k)) := by
  rw [blockTransfers_chunkOps S T n 0]
  simp only [Nat.zero_add]

/-- C1 (chunked reading): with a conforming instrument on source `C1`, an
acquisition whose expected sample count is `T > 0` performs exactly
`ceil (T / chunk_points)` block transfers; the `i`-th transfer programs
first-point `i * chunk_points * sparsing` and requests
`min (T - i * chunk_points) chunk_points` samples; and the concatenated
stripped payloads hold exactly `T` samples. -/
theorem spec_C1_chunked_reader (env : Instr) (R S T : Int)
    (hsrc : env.waveform_source = "C1")
    (hconf : Conforming env.respond)
    (hS : 1 ≤ S)
    (hT : T = expected_points R env.c1 S)
    (hTpos : 0 < T) :
    blockTransfers (_acquire_data env R S).1 =
      (List.range (ceilChunks T)).map (fun i => (chunkFirstPoint S i, chunkRequest T i)) ∧
    (blockTransfers (_acquire_data env R S).1).length = ceilChunks T ∧
    ∃ data, (_acquire_data env R S).2 = .ok data ∧ data.length = T.toNat := by
  have hS0 : ¬(S = 0) := by omega
  have hbounds := ceilChunks_bounds T hTpos
  obtain ⟨chunks, hloop, hflat⟩ := acquireLoop_conforming env.respond hconf S T (ceilChunks T) 0
    (by rw [chunk_points_eq] at hbounds ⊢; push_cast; omega)
    (fun _ => by rw [chunk_points_eq] at hbounds ⊢; push_cast; omega)
  have hne : chunks ≠ [] := by
    intro h0
    rw [h0] at hflat
    simp only [List.flatten_nil, List.length_nil] at hflat
    rw [chunk_points_eq] at hflat
    push_cast at hflat
    omega
  unfold _acquire_data
  rw [hsrc]
  simp only [sampleSize_C1]
  rw [if_neg hS0]
  rw [← hT, iterations_toNat T hTpos.le, ← ceilChunks_eq]
  simp only [hloop]
  rw [if_neg (by simpa [List.isEmpty_iff] using hne)]
  have hbt : blockTransfers
      ([IOOp.writeSparsing S, .writePoints R, .writeFirstPoint 0, .querySource] ++
        [.querySampleSize "C1"] ++ chunkOps S T (ceilChunks T) 0) =
      (List.range (ceilChunks T)).map (fun i => (chunkFirstPoint S i, chunkRequest T i)) := by
    rw [blockTransfers_skip_setup, blockTransfers_chunkOps_zero S T (ceilChunks T)]
  refine ⟨hbt, ?_, chunks.flatten, rfl, ?_⟩
  · rw [hbt]
    simp only [List.length_map, List.length_range]
  · rw [hflat]
    simp only [Nat.cast_zero, zero_mul, sub_zero]

lemma goodRespond_conforming : Conforming goodRespond :=
  fun _ np _ => ⟨List.replicate np.toNat 0, by simp, rfl⟩

/-- C1 witness: `requested_points = 0`, 10000 available samples, sparsing 1. -/
theorem spec_C1_chunked_reader_witness :
    (1 : Int) ≤ 1 ∧ (0 : Int) < 10000 ∧
    (blockTransfers (_acquire_data ⟨"C1", 10000, 0, 0, 0, "", goodRespond⟩ 0 1).1 =
      (List.range (ceilChunks 10000)).map (fun i => (chunkFirstPoint 1 i, chunkRequest 10000 i)) ∧
    (blockTransfers (_acquire_data ⟨"C1", 10000, 0, 0, 0, "", goodRespond⟩ 0 1).1).length =
      ceilChunks 10000 ∧
    ∃ data, (_acquire_data ⟨"C1", 10000, 0, 0, 0, "", goodRespond⟩ 0 1).2 = .ok data ∧
      data.length = (10000 : Int).toNat) :=
  ⟨by norm_num, by norm_num,
    spec_C1_chunked_reader ⟨"C1", 10000, 0, 0, 0, "", goodRespond⟩ 0 1 10000 rfl
      goodRespond_conforming (by norm_num) (by decide) (by norm_num)⟩

/-- C2: the number of samples to retrieve is `min(requested, available / sparsing)`
for a positive requested cap and `available / sparsing` (floor) for a zero cap. -/
theorem spec_C2_expected_points (R : Int) (A : Nat) (S : Int) (hS : 1 ≤ S) :
    (0 < R → expected_points R A S = min R ((A / S.toNat : Nat) : Int)) ∧
    (R = 0 → expected_points R A S = ((A / S.toNat : Nat) : Int)) := by
  have hS' : ((S.toNat : Nat) : Int) = S := Int.toNat_of_nonneg (by omega)
  have htd : Int.tdiv (A : Int) S = ((A / S.toNat : Nat) : Int) := by
    conv_lhs => rw [← hS']
    exact tdiv_ofNat A S.toNat
  constructor
  · intro hR
    unfold expected_points
    rw [if_pos hR, htd]
  · rintro rfl
    unfold expected_points
    rw [if_neg (by omega), htd]

/-- C2 witness: cap 3, 10 available samples, sparsing 2. -/
theorem spec_C2_expected_points_witness :
    (1 : Int) ≤ 2 ∧
    ((0 < (3 : Int) → expected_points 3 10 2 = min 3 ((10 / (2 : Int).toNat : Nat) : Int)) ∧
    ((3 : Int) = 0 → expected_points 3 10 2 = ((10 / (2 : Int).toNat : Nat) : Int))) :=
  ⟨by norm_num, spec_C2_expected_points 3 10 2 (by norm_num)⟩

/-- C4: voltage scaling is `signed(y) * (ydiv / 25) - yoffset` for a direct
channel and `unsigned(y) * (ydiv / 25) - ydiv * (yoffset + 255) / 50` for a
math trace. -/
theorem spec_C4_voltage_scaling (p : Preamble) (y : Nat) (hy : y ≤ 255) :
    (p.source ≠ "MATH" →
      _scale_data p y =
        (if y < 128 then (y : ℚ) else (y : ℚ) - 256) * (p.ydiv / 25) - p.yoffset) ∧
    (p.source = "MATH" →
      _scale_data p y = (y : ℚ) * (p.ydiv / 25) - p.ydiv * (p.yoffset + 255) / 50) := by
  constructor
  · intro hs
    unfold _scale_data byteSigned
    rw [if_neg hs]
    split_ifs with h
    · push_cast
      ring
    · push_cast
      ring
  · intro hs
    unfold _scale_data
    rw [if_pos hs]
    ring

/-- C4 witness: raw signed byte 50 with `ydiv = 0.5`, `yoffset = 0` scales to 1 V. -/
theorem spec_C4_voltage_scaling_witness :
    (50 ≤ 255 ∧
      ((Preamble.mk "C1" (1/2) 0 0 1 1).source ≠ "MATH" →
        _scale_data ⟨"C1", 1/2, 0, 0, 1, 1⟩ 50 =
          (if 50 < 128 then (50 : ℚ) else (50 : ℚ) - 256) *
            ((Preamble.mk "C1" (1/2) 0 0 1 1).ydiv / 25) -
            (Preamble.mk "C1" (1/2) 0 0 1 1).yoffset)) ∧
    _scale_data ⟨"C1", 1/2, 0, 0, 1, 1⟩ 50 = 1 := by
  have h := spec_C4_voltage_scaling ⟨"C1", 1/2, 0, 0, 1, 1⟩ 50 (by norm_num)
  refine ⟨⟨by norm_num, h.1⟩, ?_⟩
  rw [h.1 (by simp)]
  norm_num

/-- C5: the time of sample index `i` is
`-(horizontal_scale * 14 / 2) + (i * sparsing) / sampling_rate`, with the
grid-division constant 14; index 0 with `xdiv = 1e-3` and rate `1e9` maps to
`-7e-3` s. -/
theorem spec_C5_time_scaling :
    (∀ (p : Preamble) (i : Nat),
      _scale_time p i = -(p.xdiv * 14 / 2) + (i : ℚ) * p.sparsing / p.sampling_rate) ∧
    _scale_time ⟨"C1", 1, 0, 1/1000, 1, 1000000000⟩ 0 = -(7/1000) := by
  constructor
  · intro p i
    unfold _scale_time _grid_number
    ring
  · unfold _scale_time _grid_number
    norm_num

/-- C6 counterexample: on the empty raw sample sequence (length `N = 0`) the
scaler does not produce two length-0 sequences — `np.vectorize` without
`otypes` raises on size-0 input — so the claim fails at `N = 0`. -/
theorem spec_C6_counterexample :
    _process_data [] ⟨"C1", 1, 0, 0, 1, 1⟩ = .error .vectorizeEmptyError := rfl

/-- C6 (amended): for every nonempty raw sample sequence of length `N`, the
scaler returns voltage and time sequences each of length `N`, index-aligned
(voltage `i` and time `i` are computed from sample `i`); on an empty sequence
it raises the `np.vectorize` size-0 error instead. -/
theorem spec_C6_scaler_lengths :
    (∀ (p : Preamble) (ydata : List Nat), ydata ≠ [] →
      ∃ v t pr, _process_data ydata p = .ok (v, t, pr) ∧
        v.length = ydata.length ∧ t.length = ydata.length) ∧
    (∀ p : Preamble, _process_data [] p = .error .vectorizeEmptyError) := by
  constructor
  · intro p ydata hne
    unfold _process_data
    rw [if_neg (by simpa [List.isEmpty_iff] using hne)]
    exact ⟨_, _, _, rfl, by simp, by simp⟩
  · intro p
    rfl

/-- C6 witness: a two-sample sequence yields two voltage and two time points. -/
theorem spec_C6_scaler_lengths_witness :
    ([5, 200] : List Nat) ≠ [] ∧
    ∃ v t pr, _process_data [5, 200] ⟨"C1", 1, 0, 0, 1, 1⟩ = .ok (v, t, pr) ∧
      v.length = ([5, 200] : List Nat).length ∧
      t.length = ([5, 200] : List Nat).length :=
  ⟨by decide, spec_C6_scaler_lengths.1 ⟨"C1", 1, 0, 0, 1, 1⟩ [5, 200] (by decide)⟩

/-!
## Lemmas: sample-size resolution for channels and math traces
-/

lemma chanVal (env : Instr) (s : String)
    (hs : s = "C1" ∨ s = "C2" ∨ s = "C3" ∨ s = "C4") :
    ∃ n : Nat, acquisition_sample_size env 999 s = ([.querySampleSize s], .ok n) ∧
      acquisition_sample_size env recursionLimit s = ([.querySampleSize s], .ok n) := by
  rcases hs with rfl | rfl | rfl | rfl
  · exact ⟨env.c1, sampleSize_succ_C1 env 998, sampleSize_succ_C1 env 999⟩
  · exact ⟨env.c2, sampleSize_succ_C2 env 998, sampleSize_succ_C2 env 999⟩
  · exact ⟨env.c3, sampleSize_succ_C3 env 998, sampleSize_succ_C3 env 999⟩
  · exact ⟨env.c4, sampleSize_succ_C4 env 998, sampleSize_succ_C4 env 999⟩

lemma sampleSize_MATH_ok (env : Instr) (a b : String) (opsa opsb : List IOOp) (na nb : Nat)
    (hm : mathMatch env.math_define = some (a, b))
    (hA : acquisition_sample_size env 999 a = (opsa, .ok na))
    (hB : acquisition_sample_size env 999 b = (opsb, .ok nb)) :
    acquisition_sample_size env recursionLimit "MATH" =
      (.queryMathDefine :: (opsa ++ opsb), .ok (min na nb)) := by
  have h := sampleSize_succ_MATH env 999 a b hm
  rw [hA, hB] at h
  exact h

/-- C7: for a math source, the sample count used is the minimum of the two
operand channels' counts, with the operands parsed from the two-operand math
definition string. -/
theorem spec_C7_math_sample_size (env : Instr) (a b : String) (opc : Char)
    (ha : a = "C1" ∨ a = "C2" ∨ a = "C3" ∨ a = "C4")
    (hb : b = "C1" ∨ b = "C2" ∨ b = "C3" ∨ b = "C4")
    (hop : opc = '+' ∨ opc = '-' ∨ opc = '*' ∨ opc = '/')
    (hdef : env.math_define = "'" ++ a ++ String.singleton opc ++ b ++ "'") :
    ∃ na nb : Nat,
      (acquisition_sample_size env recursionLimit a).2 = .ok na ∧
      (acquisition_sample_size env recursionLimit b).2 = .ok nb ∧
      (acquisition_sample_size env recursionLimit "MATH").2 = .ok (min na nb) := by
  have hm : mathMatch env.math_define = some (a, b) := by
    rcases ha with rfl | rfl | rfl | rfl <;> rcases hb with rfl | rfl | rfl | rfl <;>
      rcases hop with rfl | rfl | rfl | rfl <;> (rw [hdef]; decide)
  obtain ⟨na, hA999, hAtop⟩ := chanVal env a ha
  obtain ⟨nb, hB999, hBtop⟩ := chanVal env b hb
  refine ⟨na, nb, by rw [hAtop], by rw [hBtop], ?_⟩
  rw [sampleSize_MATH_ok env a b _ _ na nb hm hA999 hB999]

/-- C7 witness: operands with 5000 and 8000 available samples yield 5000. -/
theorem spec_C7_math_sample_size_witness :
    ∃ na nb : Nat,
      (acquisition_sample_size ⟨"MATH", 5000, 8000, 0, 0, "'C1+C2'", fun _ _ => []⟩
        recursionLimit "C1").2 = .ok na ∧
      (acquisition_sample_size ⟨"MATH", 5000, 8000, 0, 0, "'C1+C2'", fun _ _ => []⟩
        recursionLimit "C2").2 = .ok nb ∧
      (acquisition_sample_size ⟨"MATH", 5000, 8000, 0, 0, "'C1+C2'", fun _ _ => []⟩
        recursionLimit "MATH").2 = .ok (min na nb) :=
  spec_C7_math_sample_size ⟨"MATH", 5000, 8000, 0, 0, "'C1+C2'", fun _ _ => []⟩
    "C1" "C2" '+' (Or.inl rfl) (Or.inr (Or.inl rfl)) (Or.inl rfl) (by decide)

/-!
## Lemmas: invalid-argument behaviour of the acquisition entry point
-/

lemma acquire_invalid_source (env : Instr) (R S : Int)
    (h : sanitize_source env.waveform_source = none) :
    _acquire_data env R S =
      ([.writeSparsing S, .writePoints R, .writeFirstPoint 0, .querySource],
        .error .invalidSource) := by
  unfold _acquire_data
  simp only [sampleSize_invalid env env.waveform_source h, List.append_nil]

lemma acquire_zero_sparsing (env : Instr) (R : Int) (h : env.waveform_source = "C1") :
    _acquire_data env R 0 =
      ([.writeSparsing 0, .writePoints R, .writeFirstPoint 0, .querySource,
        .querySampleSize "C1"], .error .zeroDivisionError) := by
  unfold _acquire_data
  rw [h]
  simp only [sampleSize_C1]
  rw [if_pos trivial]
  rfl

/-- C9 counterexample: the claim "an invalid-argument error is surfaced
immediately and no instrument I/O is performed before the error" is false on
the code: an unresolvable source only errors after three setup writes and the
source query, and a zero sparsing factor produces a division error, not an
invalid-argument one. -/
theorem spec_C9_counterexample :
    (_acquire_data ⟨"XY", 0, 0, 0, 0, "", fun _ _ => []⟩ 0 1).2 = .error .invalidSource ∧
    (_acquire_data ⟨"XY", 0, 0, 0, 0, "", fun _ _ => []⟩ 0 1).1 =
      [.writeSparsing 1, .writePoints 0, .writeFirstPoint 0, .querySource] ∧
    (_acquire_data ⟨"C1", 5, 0, 0, 0, "", fun _ _ => []⟩ 0 0).2 =
      .error .zeroDivisionError := by
  have h1 := acquire_invalid_source ⟨"XY", 0, 0, 0, 0, "", fun _ _ => []⟩ 0 1 (by decide)
  have h2 := acquire_zero_sparsing ⟨"C1", 5, 0, 0, 0, "", fun _ _ => []⟩ 0 rfl
  exact ⟨by rw [h1], by rw [h1], by rw [h2]⟩

/-- C9 (amended): an unresolvable source raises the invalid-argument error
during sample-size determination — after the three waveform-setup writes and
the source query but before any block transfer; a non-positive sparsing factor
is not validated: sparsing 0 raises a division error after the same setup I/O. -/
theorem spec_C9_invalid_args :
    (∀ (env : Instr) (R S : Int), sanitize_source env.waveform_source = none →
      _acquire_data env R S =
        ([.writeSparsing S, .writePoints R, .writeFirstPoint 0, .querySource],
          .error .invalidSource)) ∧
    (∀ (env : Instr) (R : Int), env.waveform_source = "C1" →
      _acquire_data env R 0 =
        ([.writeSparsing 0, .writePoints R, .writeFirstPoint 0, .querySource,
          .querySampleSize "C1"], .error .zeroDivisionError)) :=
  ⟨acquire_invalid_source, acquire_zero_sparsing⟩

/-- C9 witness: concrete unresolvable source `"XY"` and concrete zero sparsing. -/
theorem spec_C9_invalid_args_witness :
    sanitize_source "XY" = none ∧
    _acquire_data ⟨"XY", 0, 0, 0, 0, "", fun _ _ => []⟩ 3 2 =
      ([.writeSparsing 2, .writePoints 3, .writeFirstPoint 0, .querySource],
        .error .invalidSource) ∧
    _acquire_data ⟨"C1", 7, 0, 0, 0, "", fun _ _ => []⟩ 3 0 =
      ([.writeSparsing 0, .writePoints 3, .writeFirstPoint 0, .querySource,
        .querySampleSize "C1"], .error .zeroDivisionError) :=
  ⟨by decide,
    spec_C9_invalid_args.1 ⟨"XY", 0, 0, 0, 0, "", fun _ _ => []⟩ 3 2 (by decide),
    spec_C9_invalid_args.2 ⟨"C1", 7, 0, 0, 0, "", fun _ _ => []⟩ 3 rfl⟩

/-- C10: when the computed expected sample count is zero the loop performs no
block transfer and the empty concatenation raises an error instead of
returning an empty waveform. -/
theorem spec_C10_zero_expected (env : Instr) (S : Int)
    (hsrc : env.waveform_source = "C1") (hS : 1 ≤ S)
    (hzero : expected_points 0 env.c1 S = 0) :
    _acquire_data env 0 S =
      ([.writeSparsing S, .writePoints 0, .writeFirstPoint 0, .querySource,
        .querySampleSize "C1"], .error .concatEmptyError) ∧
    blockTransfers (_acquire_data env 0 S).1 = [] := by
  have hmain : _acquire_data env 0 S =
      ([.writeSparsing S, .writePoints 0, .writeFirstPoint 0, .querySource,
        .querySampleSize "C1"], .error .concatEmptyError) := by
    unfold _acquire_data
    rw [hsrc]
    simp only [sampleSize_C1]
    rw [if_neg (by omega : ¬(S = 0)), hzero]
    rfl
  exact ⟨hmain, by rw [hmain]; rfl⟩

/-- C10 witness: `requested_points = 0`, 5 available samples, sparsing 10. -/
theorem spec_C10_zero_expected_witness :
    (1 : Int) ≤ 10 ∧ expected_points 0 5 10 = 0 ∧
    (_acquire_data ⟨"C1", 5, 0, 0, 0, "", fun _ _ => []⟩ 0 10 =
      ([.writeSparsing 10, .writePoints 0, .writeFirstPoint 0, .querySource,
        .querySampleSize "C1"], .error .concatEmptyError) ∧
    blockTransfers (_acquire_data ⟨"C1", 5, 0, 0, 0, "", fun _ _ => []⟩ 0 10).1 = []) :=
  ⟨by norm_num, by decide,
    spec_C10_zero_expected ⟨"C1", 5, 0, 0, 0, "", fun _ _ => []⟩ 10 rfl (by norm_num) (by decide)⟩

/-!
## Lemmas: malformed frames abort the acquisition
-/

lemma headerFooterChecks_error_malformed (m : List Nat) (e : AcqError)
    (h : headerFooterChecks m = .error e) : isMalformedErr e := by
  unfold headerFooterChecks at h
  rcases hd : decodeAscii (m.take header_size) with _ | hdr
  · simp only [hd] at h
    cases h
    exact Or.inl rfl
  · simp only [hd] at h
    split_ifs at h with h1
    · cases h
      exact Or.inr (Or.inl rfl)
    · rcases hf : decodeAscii (m.drop (m.length - footer_size)) with _ | ftr
      · simp only [hf] at h
        cases h
        exact Or.inl rfl
      · simp only [hf] at h
        split_ifs at h with h2
        cases h
        exact Or.inr (Or.inr (Or.inl rfl))

lemma npointsChecks_error_malformed (m : List Nat) (e : AcqError)
    (h : npointsChecks m = .error e) : isMalformedErr e := by
  unfold npointsChecks at h
  rcases hd : decodeAscii (m.take header_size) with _ | hdr
  · simp only [hd] at h
    cases h
    exact Or.inl rfl
  · simp only [hd] at h
    rcases hp : parsePyInt (hdr.drop (hdr.length - 9)) with _ | t
    · simp only [hp] at h
      cases h
      exact Or.inr (Or.inr (Or.inr (Or.inl rfl)))
    · simp only [hp] at h
      split_ifs at h with h1
      cases h
      exact Or.inr (Or.inr (Or.inr (Or.inr rfl)))

lemma chunkOps_succ (S T : Int) (n i : Nat) :
    chunkOps S T (n + 1) i =
      [.writePoints (chunkRequest T i), .writeFirstPoint (chunkFirstPoint S i),
       .blockTransfer (chunkFirstPoint S i) (chunkRequest T i)] ++ chunkOps S T n (i + 1) := rfl

lemma acquireLoop_badAt (respond : Int → Int → List Nat) (S T : Int) :
    ∀ (j n i : Nat),
      (∀ k, k < j → isWellFormedFrame (chunkRequest T (i + k)).toNat
          (respond (chunkFirstPoint S (i + k)) (chunkRequest T (i + k)))) →
      ((respond (chunkFirstPoint S (i + j)) (chunkRequest T (i + j))).length =
        (chunkRequest T (i + j)).toNat + 17) →
      (headerFooterChecks (respond (chunkFirstPoint S (i + j)) (chunkRequest T (i + j))) ≠ .ok () ∨
        npointsChecks (respond (chunkFirstPoint S (i + j)) (chunkRequest T (i + j))) ≠ .ok ()) →
      (((i : Int) + j) * chunk_points < T) →
      j < n →
      ∃ e, acquireLoop respond S T n i = (chunkOps S T (j + 1) i, .error e) ∧
        isMalformedErr e := by
  intro j
  induction j with
  | zero =>
    intro n i hgood hlen hbad hlb hn
    obtain ⟨n', rfl⟩ : ∃ n', n = n' + 1 := ⟨n - 1, by omega⟩
    simp only [Nat.add_zero] at hlen hbad
    have hreq_pos : 0 < chunkRequest T i := by
      unfold chunkRequest
      rw [chunk_points_eq] at *
      push_cast at hlb
      omega
    set values := respond (chunkFirstPoint S i) (chunkRequest T i) with hv
    have hcast : ((values.length : Nat) : Int) =
        chunkRequest T i + (header_size : Int) + (footer_size : Int) := by
      rw [hlen]
      simp only [header_size, footer_size]
      push_cast
      omega
    simp only [acquireLoop]
    rw [ite_chunkRequest T i]
    rw [show ((i : Int) * chunk_points) * S = chunkFirstPoint S i from rfl, ← hv]
    rw [if_neg (by rw [hcast]; simp)]
    rcases hh : headerFooterChecks values with e | u
    · exact ⟨e, rfl, headerFooterChecks_error_malformed values e hh⟩
    · cases u
      rcases hbad with hb | hb
      · exact absurd hh hb
      · rcases hn2 : npointsChecks values with e | u2
        · exact ⟨e, rfl, npointsChecks_error_malformed values e hn2⟩
        · cases u2
          exact absurd hn2 hb
  | succ j ih =>
    intro n i hgood hlen hbad hlb hn
    obtain ⟨n', rfl⟩ : ∃ n', n = n' + 1 := ⟨n - 1, by omega⟩
    have h0 := hgood 0 (by omega)
    simp only [Nat.add_zero] at h0
    obtain ⟨payload, hplen, hframe⟩ := h0
    have hreq_pos : 0 < chunkRequest T i := by
      unfold chunkRequest
      rw [chunk_points_eq] at *
      push_cast at hlb
      omega
    have hreq_le : chunkRequest T i ≤ 999983 := by
      unfold chunkRequest
      rw [chunk_points_eq]
      omega
    have h9 : (chunkRequest T i).toNat < 10 ^ 9 := by omega
    obtain ⟨e, hloop, hmal⟩ := ih n' (i + 1)
      (fun k hk => by
        have h := hgood (k + 1) (by omega)
        rwa [show i + (k + 1) = i + 1 + k by omega] at h)
      (by rwa [show i + 1 + j = i + (j + 1) by omega])
      (by rwa [show i + 1 + j = i + (j + 1) by omega])
      (by push_cast at hlb ⊢; rw [chunk_points_eq] at *; omega)
      (by omega)
    simp only [acquireLoop]
    rw [ite_chunkRequest T i]
    rw [show ((i : Int) * chunk_points) * S = chunkFirstPoint S i from rfl, hframe]
    have hblen : (((goodFrame (chunkRequest T i).toNat payload).length : Nat) : Int) =
        chunkRequest T i + (header_size : Int) + (footer_size : Int) := by
      rw [goodFrame_length, hplen]
      simp only [header_size, footer_size]
      push_cast
      omega
    rw [if_neg (by rw [hblen]; simp)]
    rw [goodFrame_headerFooterChecks,
      goodFrame_npointsChecks (chunkRequest T i).toNat payload hplen h9]
    simp only [hloop]
    exact ⟨e, by rw [chunkOps_succ S T (j + 1) i], hmal⟩

/-- C3: if the frame received for the `j`-th block transfer is malformed —
undecodable or wrong header prefix, wrong footer byte, or a declared count
different from the actual payload length — the acquisition aborts with a
malformed-frame error, returns no data, and makes no further (or repeated)
transfer: the transfer log is exactly the first `j + 1` transfers. -/
theorem spec_C3_malformed_frame (env : Instr) (R S T : Int) (j : Nat)
    (hsrc : env.waveform_source = "C1")
    (hS : 1 ≤ S)
    (hT : T = expected_points R env.c1 S)
    (hgood : ∀ k, k < j → isWellFormedFrame (chunkRequest T k).toNat
        (env.respond (chunkFirstPoint S k) (chunkRequest T k)))
    (hlen : (env.respond (chunkFirstPoint S j) (chunkRequest T j)).length =
        (chunkRequest T j).toNat + 17)
    (hbad : headerFooterChecks (env.respond (chunkFirstPoint S j) (chunkRequest T j)) ≠ .ok () ∨
        npointsChecks (env.respond (chunkFirstPoint S j) (chunkRequest T j)) ≠ .ok ())
    (hj : (j : Int) * chunk_points < T) :
    ∃ e, (_acquire_data env R S).2 = .error e ∧ isMalformedErr e ∧
      blockTransfers (_acquire_data env R S).1 =
        (List.range (j + 1)).map (fun k => (chunkFirstPoint S k, chunkRequest T k)) := by
  have hTpos : 0 < T := by
    rw [chunk_points_eq] at hj
    omega
  have hS0 : ¬(S = 0) := by omega
  have hjlt : j < ceilChunks T := by
    rw [ceilChunks_eq]
    rw [chunk_points_eq] at hj
    omega
  obtain ⟨e, hloop, hmal⟩ := acquireLoop_badAt env.respond S T j (ceilChunks T) 0
    (fun k hk => by simpa using hgood k hk)
    (by simpa using hlen)
    (by simpa using hbad)
    (by push_cast
        simpa using hj)
    hjlt
  unfold _acquire_data
  rw [hsrc]
  simp only [sampleSize_C1]
  rw [if_neg hS0]
  rw [← hT, iterations_toNat T hTpos.le, ← ceilChunks_eq]
  simp only [hloop]
  refine ⟨e, rfl, hmal, ?_⟩
  rw [blockTransfers_skip_setup, blockTransfers_chunkOps_zero S T (j + 1)]

/-- C3 witness: the very first frame carries the right byte count but ends in
byte `0` instead of the newline terminator. -/
theorem spec_C3_malformed_frame_witness :
    (1 : Int) ≤ 1 ∧ ((0 : Int) : Int) * chunk_points < 5 ∧
    (∃ e, (_acquire_data ⟨"C1", 5, 0, 0, 0, "", badFooterRespond⟩ 0 1).2 = .error e ∧
      isMalformedErr e ∧
      blockTransfers (_acquire_data ⟨"C1", 5, 0, 0, 0, "", badFooterRespond⟩ 0 1).1 =
        (List.range (0 + 1)).map (fun k => (chunkFirstPoint 1 k, chunkRequest 5 k))) :=
  ⟨by norm_num, by decide,
    spec_C3_malformed_frame ⟨"C1", 5, 0, 0, 0, "", badFooterRespond⟩ 0 1 5 0 rfl
      (by norm_num) (by decide)
      (fun k hk => absurd hk (Nat.not_lt_zero k))
      (by decide) (Or.inl (by decide)) (by decide)⟩

/-!
## Lemmas: what the framing checks accept
-/

lemma decodeAscii_some {bs : List Nat} {cs : List Char} (h : decodeAscii bs = some cs) :
    bs = cs.map Char.toNat := by
  unfold decodeAscii at h
  split_ifs at h with hall
  cases h
  rw [List.map_map]
  have hptw : ∀ b ∈ bs, (Char.toNat ∘ Char.ofNat) b = id b := by
    intro b hb
    have hb128 : b < 128 := by
      have := List.all_eq_true.mp hall b hb
      simpa using this
    show (Char.ofNat b).toNat = b
    unfold Char.ofNat
    rw [dif_pos (Or.inl (by omega : b < 0xd800))]
    rfl
  rw [List.map_congr_left hptw, List.map_id]

lemma headerFooterChecks_ok (F : List Nat) (h : headerFooterChecks F = .ok ()) :
    ∃ hdr : List Char, decodeAscii (F.take header_size) = some hdr ∧
      hdr.take 7 = "DAT1,#9".data ∧ F.drop (F.length - footer_size) = [10] := by
  unfold headerFooterChecks at h
  rcases hd : decodeAscii (F.take header_size) with _ | hdr
  · simp only [hd] at h
    cases h
  · simp only [hd] at h
    split_ifs at h with h1
    rcases hf : decodeAscii (F.drop (F.length - footer_size)) with _ | ftr
    · simp only [hf] at h
      cases h
    · simp only [hf] at h
      split_ifs at h with h2
      refine ⟨hdr, rfl, not_not.mp h1, ?_⟩
      have hbs := decodeAscii_some hf
      rw [not_not.mp h2] at hbs
      rw [hbs]
      rfl

lemma npointsChecks_ok (F : List Nat) (h : npointsChecks F = .ok ())
    (hdr : List Char) (hd : decodeAscii (F.take header_size) = some hdr) :
    parsePyInt (hdr.drop (hdr.length - 9)) =
      some ((F.length : Int) - (header_size : Int) - (footer_size : Int)) := by
  unfold npointsChecks at h
  simp only [hd] at h
  rcases hp : parsePyInt (hdr.drop (hdr.length - 9)) with _ | t
  · simp only [hp] at h
    cases h
  · simp only [hp] at h
    split_ifs at h with h1
    rw [not_not.mp h1]

/-- C8 counterexample: the frame `DAT1,#9000000001` + one payload byte + `\n`
is accepted by both sanity checks, but it does not have the claimed shape of a
9-character header tag (7-character prefix plus a 2-digit zero-padded count):
the real header is 16 characters with a 9-digit count. -/
theorem spec_C8_counterexample :
    (headerFooterChecks (goodFrame 1 [65]) = .ok () ∧
      npointsChecks (goodFrame 1 [65]) = .ok ()) ∧
    ¬ claimedFrameShape (goodFrame 1 [65]) := by
  refine ⟨⟨by decide, by decide⟩, ?_⟩
  rintro ⟨payload, hlt, heq⟩
  have h8 : payload.length = 8 := by
    have hlen := congrArg List.length heq
    rw [show (goodFrame 1 [65]).length = 18 from rfl] at hlen
    simp only [List.length_append, List.length_map, padDigits_length,
      show ("DAT1,#9".data).length = 7 from rfl, List.length_cons, List.length_nil] at hlen
    omega
  have htake := congrArg (List.take 9) heq
  rw [show (goodFrame 1 [65]).take 9 = [68, 65, 84, 49, 44, 35, 57, 48, 48] from rfl] at htake
  rw [List.append_assoc,
    List.take_left' (by simp [padDigits_length,
      show ("DAT1,#9".data).length = 7 from rfl] : (("DAT1,#9".data ++
        padDigits 2 payload.length).map Char.toNat).length = 9)] at htake
  rw [h8] at htake
  exact absurd htake (by decide)

/-- C8 (amended): a well-formed frame is a 16-character ASCII header — the
7-character prefix `DAT1,#9` followed by a zero-padded 9-digit decimal sample
count — then one payload byte per sample and a single `\n` terminator; such
frames pass both checks, and conversely every frame the checks accept has an
ASCII-decodable 16-byte header with that prefix, a count field whose Python
`int` value equals the frame length minus header and footer sizes, and the
`\n` footer byte. -/
theorem spec_C8_frame_format :
    (∀ (np : Nat) (payload : List Nat), payload.length = np → np < 10 ^ 9 →
      headerFooterChecks (goodFrame np payload) = .ok () ∧
      npointsChecks (goodFrame np payload) = .ok () ∧
      (goodFrame np payload).length = header_size + np + footer_size) ∧
    (∀ F : List Nat, headerFooterChecks F = .ok () → npointsChecks F = .ok () →
      ∃ hdr : List Char,
        decodeAscii (F.take header_size) = some hdr ∧
        hdr.take 7 = "DAT1,#9".data ∧
        parsePyInt (hdr.drop (hdr.length - 9)) =
          some ((F.length : Int) - (header_size : Int) - (footer_size : Int)) ∧
        F.drop (F.length - footer_size) = [10]) := by
  constructor
  · intro np payload hp h9
    refine ⟨goodFrame_headerFooterChecks np payload,
      goodFrame_npointsChecks np payload hp h9, ?_⟩
    rw [goodFrame_length, hp]
    simp [header_size, footer_size]
    omega
  · intro F hhf hnp
    obtain ⟨hdr, hd, hpre, hftr⟩ := headerFooterChecks_ok F hhf
    exact ⟨hdr, hd, hpre, npointsChecks_ok F hnp hdr hd, hftr⟩

/-- C8 witness: the 18-byte frame declaring and carrying one sample. -/
theorem spec_C8_frame_format_witness :
    ((1 : Nat) < 10 ^ 9) ∧
    (headerFooterChecks (goodFrame 1 [65]) = .ok () ∧
      npointsChecks (goodFrame 1 [65]) = .ok () ∧
      (goodFrame 1 [65]).length = header_size + 1 + footer_size) ∧
    (∃ hdr : List Char,
      decodeAscii ((goodFrame 1 [65]).take header_size) = some hdr ∧
      hdr.take 7 = "DAT1,#9".data ∧
      parsePyInt (hdr.drop (hdr.length - 9)) =
        some (((goodFrame 1 [65]).length : Int) - (header_size : Int) - (footer_size : Int)) ∧
      (goodFrame 1 [65]).drop ((goodFrame 1 [65]).length - footer_size) = [10]) :=
  ⟨by norm_num, spec_C8_frame_format.1 1 [65] rfl (by norm_num),
    spec_C8_frame_format.2 (goodFrame 1 [65]) (by decide) (by decide)⟩
